import Mathlib

/-!
Verification of the obstacles-distance vision service.

Shallow embedding of `obstacles-distance/obstacles-distance.go` (package
`obstaclesdistance`).  The Go code works on `r3.Vector` with `float64`
coordinates; the embedding uses exact rationals (`ℚ`), the idealised
real-valued semantics the algorithm is written for: the code only ever
compares squared norms, so any linearly ordered field gives the same
control flow.  Point clouds are embedded as lists of vectors in traversal
order (`pointcloud.PointCloud.Iterate` visits each stored point exactly
once in some fixed traversal order).  Fallible Go functions returning
`(T, error)` are embedded as `Except`.
-/

namespace ObstaclesDistance

/-- Embeds `r3.Vector`: a 3-D coordinate. -/
structure Vec where
  x : ℚ
  y : ℚ
  z : ℚ
deriving DecidableEq, Repr

/-- Embeds `r3.Vector.Norm2`: the squared Euclidean norm `x·x + y·y + z·z`. -/
def Vec.norm2 (v : Vec) : ℚ :=
  v.x * v.x + v.y * v.y + v.z * v.z

/-- The zero value `r3.Vector{}`, i.e. the origin `(0, 0, 0)`. -/
def Vec.origin : Vec :=
  ⟨0, 0, 0⟩

/-- A point cloud in traversal order.  Per-point auxiliary `pointcloud.Data`
is ignored by the whole module, so it is omitted from the embedding. -/
abbrev PointCloud := List Vec

/-- One step of the loop body of `getClosestPoint`: the accumulator holds
`(minDistance, minPoint)`.  The Go code initialises `minDistance` to
`math.MaxFloat64`, a sentinel larger than every distance that occurs; the
embedding renders the sentinel as `none` (no point seen yet), for which the
strict comparison `dist < minDistance` is always true. -/
def closestStep (acc : Option ℚ × Vec) (pt : Vec) : Option ℚ × Vec :=
  match acc.1 with
  | none => (some pt.norm2, pt)
  | some m => if pt.norm2 < m then (some pt.norm2, pt) else acc

/-- Embeds `getClosestPoint`: iterate over the cloud tracking the point of
minimum squared distance from the origin, starting from the sentinel
distance and the zero vector `minPoint`. -/
def getClosestPoint (cloud : PointCloud) : Vec :=
  (cloud.foldl closestStep (none, Vec.origin)).2

/-- The same iteration instrumented with a visit counter: the second
component counts how many times the `Iterate` callback body of
`getClosestPoint` runs (the callback always returns `true`, so the
iteration never stops early). -/
def closestVisitCount (cloud : PointCloud) : ℕ :=
  (cloud.foldl (fun acc pt => (closestStep acc.1 pt, acc.2 + 1))
    ((none, Vec.origin), 0)).2

/-- The comparison underlying `points.Less`: `p[i].Norm2() < p[j].Norm2()`.
`sort.Sort` with this `Less` produces a list non-decreasing in `norm2`; the
embedding therefore sorts by the non-strict companion relation. -/
def vecLe (a b : Vec) : Prop :=
  a.norm2 ≤ b.norm2

instance : DecidableRel vecLe := fun a b => inferInstanceAs (Decidable (a.norm2 ≤ b.norm2))

instance : IsTotal Vec vecLe := ⟨fun a b => le_total a.norm2 b.norm2⟩

instance : IsTrans Vec vecLe := ⟨fun _ _ _ h h' => le_trans h h'⟩

/-- Embeds `sortVectors`: sort the vectors by squared distance from the
origin, non-decreasing.  Go uses `sort.Sort` (an unstable comparison sort);
any comparison sort produces a `vecLe`-sorted permutation of its input, and
the embedding fixes insertion sort as the representative (it agrees with
Go's algorithm on all the slices examined concretely below). -/
def sortVectors (v : List Vec) : List Vec :=
  v.insertionSort vecLe

/-- Embeds `getMedianPoint`: sort, then return the element at index
`(len(pts) - 1) / 2`.  The Go code indexes the sorted slice directly and
would panic on an empty slice (its only caller guards against that); the
embedding totalises the out-of-range case with the zero vector. -/
def getMedianPoint (pts : List Vec) : Vec :=
  (sortVectors pts).getD ((pts.length - 1) / 2) Vec.origin

/-- The error value of `medianFromPointClouds`
(`"point cloud list is empty, could not find median point"`). -/
inductive MedianError
  | emptyCandidates
deriving DecidableEq, Repr

/-- Embeds `medianFromPointClouds`.  The Go code fans the clouds out over
`utils.GroupWorkParallel`, worker `g` computing `getClosestPoint` for each
cloud of a contiguous index range in index order and the driver
concatenating the per-worker slices in group order; the concatenation is
therefore exactly `clouds.map getClosestPoint` (proved as
`groupedCandidates_eq_map` below for every contiguous partition). -/
def medianFromPointClouds (clouds : List PointCloud) : Except MedianError Vec :=
  if (clouds.map getClosestPoint).length = 0 then .error .emptyCandidates
  else .ok (getMedianPoint (clouds.map getClosestPoint))

/-- The contiguous partition `utils.GroupWorkParallel` uses: group sizes
`sizes`, each group receiving the next `sizes[g]` clouds. -/
def chunkList (sizes : List ℕ) (l : List PointCloud) : List (List PointCloud) :=
  match sizes with
  | [] => []
  | n :: ns => l.take n :: chunkList ns (l.drop n)

/-- The concatenation, in group order, of each worker's local
`closestPoints` slice (each worker maps `getClosestPoint` over its chunk in
index order). -/
def groupedCandidates (sizes : List ℕ) (clouds : List PointCloud) : List Vec :=
  ((chunkList sizes clouds).map (List.map getClosestPoint)).flatten

/-- Errors surfaced by the segmenter closure in
`registerObstacleDistanceDetector`.  `E` is the (abstract) type of errors
the camera's `NextPointCloud` can return. -/
inductive SegError (E : Type)
  | acquisition (e : E)
  | noPoints
  | median (e : MedianError)
deriving DecidableEq, Repr

/-- The acquisition loop of the segmenter: starting at query index `i` with
`n` queries remaining, call `acquire` at successive indices; an error aborts
immediately, an empty cloud is skipped (`continue`), a non-empty cloud is
appended.  Returns the collected clouds (or the first error) together with
the number of `NextPointCloud` calls actually performed. -/
def acquireRun {E : Type} (acquire : ℕ → Except E PointCloud) :
    ℕ → ℕ → Except E (List PointCloud) × ℕ
  | _, 0 => (.ok [], 0)
  | i, n + 1 =>
    match acquire i with
    | .error e => (.error e, 1)
    | .ok pc =>
      (match (acquireRun acquire (i + 1) n).1 with
       | .error e => .error e
       | .ok rest => .ok (if pc.length = 0 then rest else pc :: rest),
       (acquireRun acquire (i + 1) n).2 + 1)

/-- Embeds `vis.Object` as the segmenter builds it: a point cloud holding
exactly the median vector, plus the zero-volume point geometry
`spatialmath.NewPoint(vector, "obstacle")` centred on it. -/
structure VisObject where
  pointCloud : List Vec
  geomCenter : Vec
  geomLabel : String
deriving DecidableEq, Repr

/-- The object the segmenter returns for a computed median point. -/
def mkObstacleObject (median : Vec) : VisObject :=
  ⟨[median], median, "obstacle"⟩

/-- Embeds the segmenter closure of `registerObstacleDistanceDetector`:
perform `numQueries` sequential acquisitions (fail-fast, empty clouds
skipped), fail with the `"none of the input point clouds contained any
points"` error if no non-empty cloud was collected, otherwise return the
single obstacle object built from the median point. -/
def segmenter {E : Type} (acquire : ℕ → Except E PointCloud) (numQueries : ℕ) :
    Except (SegError E) (List VisObject) :=
  match (acquireRun acquire 0 numQueries).1 with
  | .error e => .error (.acquisition e)
  | .ok clouds =>
    if clouds.length = 0 then .error .noPoints
    else
      match medianFromPointClouds clouds with
      | .error e => .error (.median e)
      | .ok median => .ok [mkObstacleObject median]

/-- Embeds `DefaultNumQueries`: the default number of camera queries. -/
def DefaultNumQueries : ℤ := 10

/-- Embeds `DistanceDetectorConfig`: `num_queries` (a Go `int`, embedded as
`ℤ`) and `camera_name`. -/
structure DistanceDetectorConfig where
  numQueries : ℤ
  defaultCamera : String
deriving DecidableEq, Repr

/-- Embeds `(*DistanceDetectorConfig).Validate`: substitute
`DefaultNumQueries` for a zero `NumQueries`, reject values outside
`[1, 20]`, and on success return the required and optional dependency
lists (the camera name is a required dependency when set). -/
def Validate (config : DistanceDetectorConfig) :
    Except String (List String × List String) :=
  let numQueries := if config.numQueries = 0 then DefaultNumQueries
                    else config.numQueries
  if numQueries < 1 ∨ numQueries > 20 then
    .error "invalid number of queries, pick a number between 1 and 20"
  else
    .ok (if config.defaultCamera ≠ "" then [config.defaultCamera] else [], [])

/-- Embeds a camera dependency map (`resource.Dependencies` restricted to
the names `camera.FromDependencies` can resolve).  For the claims below only
resolvability and identity of the resolved camera matter, so a camera is
identified with its name. -/
structure Deps where
  cams : List String
deriving DecidableEq, Repr

/-- Embeds `camera.FromDependencies`: resolve a camera by name, failing for
a name absent from the dependencies. -/
def fromDependencies (deps : Deps) (name : String) : Except String String :=
  if name ∈ deps.cams then .ok name else .error ("missing camera " ++ name)

/-- Errors surfaced by the service methods `GetObjectPointClouds` and
`CaptureAllFromCamera`. -/
inductive SvcError (E : Type)
  | cameraLookup (msg : String)
  | noCameraSpecified
  | seg (e : SegError E)
  | decodeImage (msg : String)
deriving DecidableEq, Repr

/-- The state of `obstacleDistanceService` relevant to the claims: the
dependencies, the optional default camera, and the segmenter closure (a
function from the resolved camera to per-query acquisition results, which
the closure threads into `NextPointCloud`). -/
structure ObstacleDistanceService (E : Type) where
  deps : Deps
  defaultCamera : Option String
  acquireOf : String → ℕ → Except E PointCloud
  numQueries : ℕ

/-- Embeds `(*obstacleDistanceService).GetObjectPointClouds`: resolve the
camera (explicit name first, then the default camera, else the
`"no camera specified"` error) and run the segmenter on it. -/
def GetObjectPointClouds {E : Type} (s : ObstacleDistanceService E)
    (cameraName : String) : Except (SvcError E) (List VisObject) :=
  match
    (if cameraName ≠ "" then
      match fromDependencies s.deps cameraName with
      | .error msg => .error (.cameraLookup msg)
      | .ok cam => .ok cam
    else
      match s.defaultCamera with
      | some cam => .ok cam
      | none => .error .noCameraSpecified : Except (SvcError E) String)
  with
  | .error e => .error e
  | .ok cam =>
    match segmenter (s.acquireOf cam) s.numQueries with
    | .error e => .error (.seg e)
    | .ok objs => .ok objs

/-- Embeds `viscapture.CaptureOptions` (the two fields the method reads). -/
structure CaptureOptions where
  returnImage : Bool
  returnObject : Bool
deriving DecidableEq, Repr

/-- Embeds `viscapture.VisCapture` as the method populates it; images are
abstract (`Option Img`). -/
structure VisCapture (Img : Type) where
  image : Option Img
  objects : List VisObject
  detections : List String
  classifications : List String

/-- Embeds `(*obstacleDistanceService).CaptureAllFromCamera`: resolve the
camera exactly as `GetObjectPointClouds` does, optionally decode an image
(`decodeImage` abstracts `camera.DecodeImageFromCamera`), optionally gather
the objects via `GetObjectPointClouds`, and always return empty detection
and classification lists. -/
def CaptureAllFromCamera {E Img : Type} (s : ObstacleDistanceService E)
    (decodeImage : String → Except String Img)
    (cameraName : String) (captureOptions : CaptureOptions) :
    Except (SvcError E) (VisCapture Img) :=
  match
    (if cameraName ≠ "" then
      match fromDependencies s.deps cameraName with
      | .error msg => .error (.cameraLookup msg)
      | .ok cam => .ok cam
    else
      match s.defaultCamera with
      | some cam => .ok cam
      | none => .error .noCameraSpecified : Except (SvcError E) String)
  with
  | .error e => .error e
  | .ok cam =>
    let withImage : Except (SvcError E) (Option Img) :=
      if captureOptions.returnImage then
        match decodeImage cam with
        | .error msg => .error (.decodeImage msg)
        | .ok img => .ok (some img)
      else .ok none
    match withImage with
    | .error e => .error e
    | .ok img =>
      let withObjects : Except (SvcError E) (List VisObject) :=
        if captureOptions.returnObject then GetObjectPointClouds s cameraName
        else .ok []
      match withObjects with
      | .error e => .error e
      | .ok objs => .ok ⟨img, objs, [], []⟩

/-- Embeds `errUnimplemented`: the sentinel error returned by every vision-service
method this module declines to implement. -/
inductive MethodError
  | unimplemented
deriving DecidableEq, Repr

/-- Embeds `NewClientFromConn`: always `(nil, errUnimplemented)`. -/
def NewClientFromConn {Conn Svc : Type} (conn : Conn) (remoteName : String) :
    Except MethodError Svc :=
  .error .unimplemented

/-- Embeds `Detections`: always `(nil, errUnimplemented)`. -/
def Detections {Img Det : Type} (img : Img) : Except MethodError (List Det) :=
  .error .unimplemented

/-- Embeds `DetectionsFromCamera`: always `(nil, errUnimplemented)`. -/
def DetectionsFromCamera {Det : Type} (cameraName : String) :
    Except MethodError (List Det) :=
  .error .unimplemented

/-- Embeds `Classifications`: always `(nil, errUnimplemented)`. -/
def Classifications {Img Cls : Type} (img : Img) (count : ℕ) :
    Except MethodError (List Cls) :=
  .error .unimplemented

/-- Embeds `ClassificationsFromCamera`: always `(nil, errUnimplemented)`. -/
def ClassificationsFromCamera {Cls : Type} (cameraName : String) (count : ℕ) :
    Except MethodError (List Cls) :=
  .error .unimplemented

/-- Embeds `DoCommand`: always `(nil, errUnimplemented)`. -/
def DoCommand {Cmd Res : Type} (cmd : Cmd) : Except MethodError Res :=
  .error .unimplemented

/-- Embeds `vision.Properties`. -/
structure Properties where
  classificationSupported : Bool
  detectionSupported : Bool
  objectPCDsSupported : Bool
deriving DecidableEq, Repr

/-- Embeds `GetProperties`: classification and detection unsupported,
object point clouds supported, never an error. -/
def GetProperties : Except MethodError Properties :=
  .ok ⟨false, false, true⟩

/-! Theorems. -/

/-- Invariant of the `getClosestPoint` loop once a real minimum is held:
either no later point strictly improves the running minimum `m` and the
accumulator is unchanged, or the fold ends at the first point `w` that is
strictly below `m` and below every point before it, with every point after
it no closer. -/
theorem closest_foldl_split (l : List Vec) :
    ∀ (m : ℚ) (v : Vec),
      (List.foldl closestStep (some m, v) l = (some m, v) ∧
        ∀ p ∈ l, m ≤ p.norm2) ∨
      (∃ l₁ w l₂, l = l₁ ++ w :: l₂ ∧
        List.foldl closestStep (some m, v) l = (some w.norm2, w) ∧
        w.norm2 < m ∧ (∀ p ∈ l₁, w.norm2 < p.norm2) ∧
        (∀ p ∈ l₂, w.norm2 ≤ p.norm2)) := by
  induction l with
  | nil =>
    intro m v
    left
    exact ⟨rfl, by simp⟩
  | cons p t ih =>
    intro m v
    rw [List.foldl_cons]
    by_cases hlt : p.norm2 < m
    · have hstep : closestStep (some m, v) p = (some p.norm2, p) := by
        simp [closestStep, hlt]
      rw [hstep]
      rcases ih p.norm2 p with ⟨heq, hall⟩ | ⟨t₁, w, t₂, hteq, heq, hwlt, h₁, h₂⟩
      · right
        exact ⟨[], p, t, by simp, heq, hlt, by simp, hall⟩
      · right
        refine ⟨p :: t₁, w, t₂, by simp [hteq], heq, lt_trans hwlt hlt, ?_, h₂⟩
        intro q hq
        rcases List.mem_cons.mp hq with rfl | hq
        · exact hwlt
        · exact h₁ q hq
    · have hstep : closestStep (some m, v) p = (some m, v) := by
        simp [closestStep, hlt]
      rw [hstep]
      push_neg at hlt
      rcases ih m v with ⟨heq, hall⟩ | ⟨t₁, w, t₂, hteq, heq, hwlt, h₁, h₂⟩
      · left
        refine ⟨heq, ?_⟩
        intro q hq
        rcases List.mem_cons.mp hq with rfl | hq
        · exact hlt
        · exact hall q hq
      · right
        refine ⟨p :: t₁, w, t₂, by simp [hteq], heq, hwlt, ?_, h₂⟩
        intro q hq
        rcases List.mem_cons.mp hq with rfl | hq
        · exact lt_of_lt_of_le hwlt hlt
        · exact h₁ q hq

/-- Running `getClosestPoint` on a non-empty cloud returns a member attaining the
minimum squared distance, and it is the first such member in traversal
order: every point before it is strictly farther and every point after it
no closer. -/
theorem getClosestPoint_split (cloud : PointCloud) (h : cloud ≠ []) :
    getClosestPoint cloud ∈ cloud ∧
      (∀ p ∈ cloud, (getClosestPoint cloud).norm2 ≤ p.norm2) ∧
      ∃ l₁ l₂, cloud = l₁ ++ getClosestPoint cloud :: l₂ ∧
        (∀ p ∈ l₁, (getClosestPoint cloud).norm2 < p.norm2) ∧
        (∀ p ∈ l₂, (getClosestPoint cloud).norm2 ≤ p.norm2) := by
  match cloud, h with
  | p :: t, _ =>
    have hg : getClosestPoint (p :: t) =
        (List.foldl closestStep (some p.norm2, p) t).2 := rfl
    rcases closest_foldl_split t p.norm2 p with
      ⟨heq, hall⟩ | ⟨t₁, w, t₂, hteq, heq, hwlt, h₁, h₂⟩
    · have hg2 : getClosestPoint (p :: t) = p := by rw [hg, heq]
      rw [hg2]
      refine ⟨List.mem_cons_self _ _, ?_, [], t, by simp, by simp, hall⟩
      intro q hq
      rcases List.mem_cons.mp hq with rfl | hq
      · exact le_refl _
      · exact hall q hq
    · subst hteq
      have hg2 : getClosestPoint (p :: (t₁ ++ w :: t₂)) = w := by rw [hg, heq]
      rw [hg2]
      have hmin : ∀ q ∈ p :: (t₁ ++ w :: t₂), w.norm2 ≤ q.norm2 := by
        intro q hq
        rcases List.mem_cons.mp hq with rfl | hq
        · exact le_of_lt hwlt
        · rcases List.mem_append.mp hq with hq | hq
          · exact le_of_lt (h₁ q hq)
          · rcases List.mem_cons.mp hq with rfl | hq
            · exact le_refl _
            · exact h₂ q hq
      refine ⟨?_, hmin, p :: t₁, t₂, by simp, ?_, h₂⟩
      · simp
      · intro q hq
        rcases List.mem_cons.mp hq with rfl | hq
        · exact hwlt
        · exact h₁ q hq

/-- C1: For every non-empty point cloud, `getClosestPoint` returns a
member of the cloud whose squared distance from the origin is less than or
equal to that of every other member. -/
theorem getClosestPoint_mem_and_min (cloud : PointCloud) (h : cloud ≠ []) :
    getClosestPoint cloud ∈ cloud ∧
      ∀ p ∈ cloud, (getClosestPoint cloud).norm2 ≤ p.norm2 :=
  ⟨(getClosestPoint_split cloud h).1, (getClosestPoint_split cloud h).2.1⟩

/-- Witness for C1 on the concrete cloud `[(3,0,0), (1,0,0), (2,0,0)]`. -/
theorem getClosestPoint_mem_and_min_witness :
    ([⟨3,0,0⟩, ⟨1,0,0⟩, ⟨2,0,0⟩] : PointCloud) ≠ [] ∧
    (getClosestPoint [⟨3,0,0⟩, ⟨1,0,0⟩, ⟨2,0,0⟩] ∈
        ([⟨3,0,0⟩, ⟨1,0,0⟩, ⟨2,0,0⟩] : PointCloud) ∧
      ∀ p ∈ ([⟨3,0,0⟩, ⟨1,0,0⟩, ⟨2,0,0⟩] : PointCloud),
        (getClosestPoint [⟨3,0,0⟩, ⟨1,0,0⟩, ⟨2,0,0⟩]).norm2 ≤ p.norm2) :=
  ⟨by decide, getClosestPoint_mem_and_min _ (by decide)⟩

/-- C6: On the empty point cloud, `getClosestPoint` returns the zero
value `r3.Vector{}`, i.e. the origin `(0, 0, 0)`, whose squared distance is
`0`; being a total function, it has no failure mode. -/
theorem getClosestPoint_empty :
    getClosestPoint ([] : PointCloud) = Vec.origin ∧
    Vec.origin = ⟨0, 0, 0⟩ ∧ Vec.norm2 Vec.origin = 0 :=
  ⟨rfl, rfl, by norm_num [Vec.norm2, Vec.origin]⟩

/-- The instrumented fold increments its counter once per list element. -/
theorem foldl_count_eq {α β : Type} (step : β → α → β) :
    ∀ (l : List α) (acc : β × ℕ),
      (l.foldl (fun a x => (step a.1 x, a.2 + 1)) acc).2 = acc.2 + l.length := by
  intro l
  induction l with
  | nil =>
    intro acc
    simp
  | cons p t ih =>
    intro acc
    rw [List.foldl_cons, ih]
    simp
    omega

/-- Theorem: the `getClosestPoint` iteration runs its callback exactly once per
point of the cloud. -/
theorem closestVisitCount_eq (cloud : PointCloud) :
    closestVisitCount cloud = cloud.length := by
  unfold closestVisitCount
  rw [foldl_count_eq closestStep cloud ((none, Vec.origin), 0)]
  simp

/-- C7: On a cloud with at least two points tied at the minimum squared
distance, `getClosestPoint` returns the first point in traversal order
attaining the minimum (strictly closer than everything before it, no
farther than anything after it), and its iteration visits every point
exactly once. -/
theorem getClosestPoint_tie_first (cloud : PointCloud)
    (htie : ∃ i j : Fin cloud.length, i ≠ j ∧
        (cloud.get i).norm2 = (cloud.get j).norm2 ∧
        ∀ p ∈ cloud, (cloud.get i).norm2 ≤ p.norm2) :
    (∃ l₁ l₂, cloud = l₁ ++ getClosestPoint cloud :: l₂ ∧
        (∀ p ∈ l₁, (getClosestPoint cloud).norm2 < p.norm2) ∧
        (∀ p ∈ l₂, (getClosestPoint cloud).norm2 ≤ p.norm2)) ∧
    (∀ p ∈ cloud, (getClosestPoint cloud).norm2 ≤ p.norm2) ∧
    closestVisitCount cloud = cloud.length := by
  have hne : cloud ≠ [] := by
    obtain ⟨i, -, -⟩ := htie
    intro hnil
    subst hnil
    exact absurd i.isLt (by simp)
  exact ⟨(getClosestPoint_split cloud hne).2.2,
    (getClosestPoint_split cloud hne).2.1, closestVisitCount_eq cloud⟩

/-- Witness for C7 on `[(2,0,0), (1,0,0), (0,1,0), (3,0,0)]`, whose
minimum squared distance `1` is attained at indices 1 and 2. -/
theorem getClosestPoint_tie_first_witness :
    (∃ i j : Fin ([⟨2,0,0⟩, ⟨1,0,0⟩, ⟨0,1,0⟩, ⟨3,0,0⟩] : PointCloud).length,
        i ≠ j ∧
        (([⟨2,0,0⟩, ⟨1,0,0⟩, ⟨0,1,0⟩, ⟨3,0,0⟩] : PointCloud).get i).norm2 =
          (([⟨2,0,0⟩, ⟨1,0,0⟩, ⟨0,1,0⟩, ⟨3,0,0⟩] : PointCloud).get j).norm2 ∧
        ∀ p ∈ ([⟨2,0,0⟩, ⟨1,0,0⟩, ⟨0,1,0⟩, ⟨3,0,0⟩] : PointCloud),
          (([⟨2,0,0⟩, ⟨1,0,0⟩, ⟨0,1,0⟩, ⟨3,0,0⟩] : PointCloud).get i).norm2 ≤
            p.norm2) ∧
    ((∃ l₁ l₂, ([⟨2,0,0⟩, ⟨1,0,0⟩, ⟨0,1,0⟩, ⟨3,0,0⟩] : PointCloud) =
          l₁ ++ getClosestPoint [⟨2,0,0⟩, ⟨1,0,0⟩, ⟨0,1,0⟩, ⟨3,0,0⟩] :: l₂ ∧
        (∀ p ∈ l₁,
          (getClosestPoint [⟨2,0,0⟩, ⟨1,0,0⟩, ⟨0,1,0⟩, ⟨3,0,0⟩]).norm2 <
            p.norm2) ∧
        (∀ p ∈ l₂,
          (getClosestPoint [⟨2,0,0⟩, ⟨1,0,0⟩, ⟨0,1,0⟩, ⟨3,0,0⟩]).norm2 ≤
            p.norm2)) ∧
      (∀ p ∈ ([⟨2,0,0⟩, ⟨1,0,0⟩, ⟨0,1,0⟩, ⟨3,0,0⟩] : PointCloud),
        (getClosestPoint [⟨2,0,0⟩, ⟨1,0,0⟩, ⟨0,1,0⟩, ⟨3,0,0⟩]).norm2 ≤
          p.norm2) ∧
      closestVisitCount [⟨2,0,0⟩, ⟨1,0,0⟩, ⟨0,1,0⟩, ⟨3,0,0⟩] =
        ([⟨2,0,0⟩, ⟨1,0,0⟩, ⟨0,1,0⟩, ⟨3,0,0⟩] : PointCloud).length) := by
  have htie : ∃ i j : Fin ([⟨2,0,0⟩, ⟨1,0,0⟩, ⟨0,1,0⟩, ⟨3,0,0⟩] :
      PointCloud).length, i ≠ j ∧
      (([⟨2,0,0⟩, ⟨1,0,0⟩, ⟨0,1,0⟩, ⟨3,0,0⟩] : PointCloud).get i).norm2 =
        (([⟨2,0,0⟩, ⟨1,0,0⟩, ⟨0,1,0⟩, ⟨3,0,0⟩] : PointCloud).get j).norm2 ∧
      ∀ p ∈ ([⟨2,0,0⟩, ⟨1,0,0⟩, ⟨0,1,0⟩, ⟨3,0,0⟩] : PointCloud),
        (([⟨2,0,0⟩, ⟨1,0,0⟩, ⟨0,1,0⟩, ⟨3,0,0⟩] : PointCloud).get i).norm2 ≤
          p.norm2 := by
    refine ⟨⟨1, by decide⟩, ⟨2, by decide⟩, by decide, ?_, ?_⟩
    · show Vec.norm2 ⟨1,0,0⟩ = Vec.norm2 ⟨0,1,0⟩
      norm_num [Vec.norm2]
    · show ∀ p ∈ ([⟨2,0,0⟩, ⟨1,0,0⟩, ⟨0,1,0⟩, ⟨3,0,0⟩] : PointCloud),
        Vec.norm2 ⟨1,0,0⟩ ≤ p.norm2
      norm_num [Vec.norm2]
  exact ⟨htie, getClosestPoint_tie_first _ htie⟩

/-- C2: For every non-empty candidate list of size `k`,
`getMedianPoint` sorts ascending by squared distance from the origin and
returns the element at 0-based index `(k-1)/2` of the sorted list — an
actual candidate, never an interpolated value. -/
theorem getMedianPoint_spec (pts : List Vec) (h : pts ≠ []) :
    (sortVectors pts).Perm pts ∧
    List.Sorted vecLe (sortVectors pts) ∧
    (∃ hlt : (pts.length - 1) / 2 < (sortVectors pts).length,
        getMedianPoint pts = (sortVectors pts).get ⟨(pts.length - 1) / 2, hlt⟩) ∧
    getMedianPoint pts ∈ pts := by
  have hperm : (sortVectors pts).Perm pts := List.perm_insertionSort vecLe pts
  have hsort : List.Sorted vecLe (sortVectors pts) :=
    List.sorted_insertionSort vecLe pts
  have hlen : (sortVectors pts).length = pts.length := hperm.length_eq
  have hpos : 0 < pts.length := List.length_pos.mpr h
  have hlt : (pts.length - 1) / 2 < (sortVectors pts).length := by
    rw [hlen]
    omega
  have hget : getMedianPoint pts =
      (sortVectors pts).get ⟨(pts.length - 1) / 2, hlt⟩ := by
    unfold getMedianPoint
    rw [List.getD_eq_getElem _ _ hlt]
    rfl
  refine ⟨hperm, hsort, ⟨hlt, hget⟩, ?_⟩
  rw [hget]
  exact hperm.subset (List.get_mem _ _ _)

/-- Witness for C2 on the concrete candidates `[(3,0,0), (1,0,0), (2,0,0)]`
(k = 3, median index 1). -/
theorem getMedianPoint_spec_witness :
    ([⟨3,0,0⟩, ⟨1,0,0⟩, ⟨2,0,0⟩] : List Vec) ≠ [] ∧
    ((sortVectors [⟨3,0,0⟩, ⟨1,0,0⟩, ⟨2,0,0⟩]).Perm
        [⟨3,0,0⟩, ⟨1,0,0⟩, ⟨2,0,0⟩] ∧
      List.Sorted vecLe (sortVectors [⟨3,0,0⟩, ⟨1,0,0⟩, ⟨2,0,0⟩]) ∧
      (∃ hlt : (([⟨3,0,0⟩, ⟨1,0,0⟩, ⟨2,0,0⟩] : List Vec).length - 1) / 2 <
          (sortVectors [⟨3,0,0⟩, ⟨1,0,0⟩, ⟨2,0,0⟩]).length,
        getMedianPoint [⟨3,0,0⟩, ⟨1,0,0⟩, ⟨2,0,0⟩] =
          (sortVectors [⟨3,0,0⟩, ⟨1,0,0⟩, ⟨2,0,0⟩]).get
            ⟨(([⟨3,0,0⟩, ⟨1,0,0⟩, ⟨2,0,0⟩] : List Vec).length - 1) / 2, hlt⟩) ∧
      getMedianPoint [⟨3,0,0⟩, ⟨1,0,0⟩, ⟨2,0,0⟩] ∈
        ([⟨3,0,0⟩, ⟨1,0,0⟩, ⟨2,0,0⟩] : List Vec)) :=
  ⟨by decide, getMedianPoint_spec _ (by decide)⟩

/-- An exact contiguous chunking flattens back to the original list. -/
theorem flatten_chunkList (sizes : List ℕ) :
    ∀ l : List PointCloud, l.length ≤ sizes.sum →
      (chunkList sizes l).flatten = l := by
  induction sizes with
  | nil =>
    intro l hl
    simp at hl
    simp [chunkList, hl]
  | cons n ns ih =>
    intro l hl
    show (l.take n :: chunkList ns (l.drop n)).flatten = l
    rw [List.flatten_cons, ih (l.drop n) ?_, List.take_append_drop]
    rw [List.length_drop]
    rw [List.sum_cons] at hl
    omega

/-- Worker-assignment invariance: however `GroupWorkParallel` splits the
cloud list into contiguous groups, concatenating the per-group candidate
slices in group order yields exactly the sequential candidate list. -/
theorem groupedCandidates_eq_map (sizes : List ℕ) (clouds : List PointCloud)
    (h : clouds.length ≤ sizes.sum) :
    groupedCandidates sizes clouds = clouds.map getClosestPoint := by
  unfold groupedCandidates
  rw [← List.map_flatten, flatten_chunkList sizes clouds h]

/-- Two permuted lists whose images under `f` are equal, with no duplicate
`f`-keys, are equal. -/
theorem eq_of_perm_map_nodup {α β : Type} (f : α → β) :
    ∀ {l₁ l₂ : List α}, l₁.Perm l₂ → l₁.map f = l₂.map f →
      (l₁.map f).Nodup → l₁ = l₂ := by
  intro l₁
  induction l₁ with
  | nil =>
    intro l₂ hp _ _
    exact hp.nil_eq
  | cons a t ih =>
    intro l₂ hp hm hn
    cases l₂ with
    | nil => exact absurd hp.length_eq (by simp)
    | cons b t₂ =>
      rw [List.map_cons, List.map_cons] at hm
      injection hm with hm1 hm2
      rw [List.map_cons] at hn
      obtain ⟨hna, hnt⟩ := List.nodup_cons.mp hn
      have haeq : a = b := by
        rcases List.mem_cons.mp (hp.subset (List.mem_cons_self a t)) with h | h
        · exact h
        · exfalso
          apply hna
          rw [hm2]
          exact List.mem_map_of_mem f h
      subst haeq
      rw [ih hp.cons_inv hm2 hnt]

/-- The median point of a candidate list, under permutation: its squared
distance from the origin is invariant, and the point itself is invariant
whenever no two candidates share a squared distance. -/
theorem getMedianPoint_perm (c₁ c₂ : List Vec) (hpc : c₁.Perm c₂)
    (hne : c₁ ≠ []) :
    (getMedianPoint c₁).norm2 = (getMedianPoint c₂).norm2 ∧
      ((c₁.map Vec.norm2).Nodup → getMedianPoint c₁ = getMedianPoint c₂) := by
  have hperm₁ : (sortVectors c₁).Perm c₁ := List.perm_insertionSort vecLe c₁
  have hperm₂ : (sortVectors c₂).Perm c₂ := List.perm_insertionSort vecLe c₂
  have hs₁ : List.Sorted vecLe (sortVectors c₁) :=
    List.sorted_insertionSort vecLe c₁
  have hs₂ : List.Sorted vecLe (sortVectors c₂) :=
    List.sorted_insertionSort vecLe c₂
  have hss : (sortVectors c₁).Perm (sortVectors c₂) :=
    hperm₁.trans (hpc.trans hperm₂.symm)
  have hmap₁ : List.Sorted (· ≤ ·) ((sortVectors c₁).map Vec.norm2) :=
    List.Pairwise.map Vec.norm2 (fun a b hab => hab) hs₁
  have hmap₂ : List.Sorted (· ≤ ·) ((sortVectors c₂).map Vec.norm2) :=
    List.Pairwise.map Vec.norm2 (fun a b hab => hab) hs₂
  have hmapeq : (sortVectors c₁).map Vec.norm2 =
      (sortVectors c₂).map Vec.norm2 :=
    List.eq_of_perm_of_sorted (hss.map Vec.norm2) hmap₁ hmap₂
  have hclen : c₁.length = c₂.length := hpc.length_eq
  have hpos : 0 < c₁.length := List.length_pos.mpr hne
  have hlt₁ : (c₁.length - 1) / 2 < (sortVectors c₁).length := by
    rw [hperm₁.length_eq]
    omega
  have hlt₂ : (c₁.length - 1) / 2 < (sortVectors c₂).length := by
    rw [hperm₂.length_eq, ← hclen]
    omega
  have hg₁ : getMedianPoint c₁ =
      (sortVectors c₁).get ⟨(c₁.length - 1) / 2, hlt₁⟩ := by
    unfold getMedianPoint
    rw [List.getD_eq_getElem _ _ hlt₁]
    rfl
  have hg₂ : getMedianPoint c₂ =
      (sortVectors c₂).get ⟨(c₁.length - 1) / 2, hlt₂⟩ := by
    unfold getMedianPoint
    rw [← hclen, List.getD_eq_getElem _ _ hlt₂]
    rfl
  have hmlt₁ : (c₁.length - 1) / 2 < ((sortVectors c₁).map Vec.norm2).length :=
    by simpa using hlt₁
  have hmlt₂ : (c₁.length - 1) / 2 < ((sortVectors c₂).map Vec.norm2).length :=
    by simpa using hlt₂
  constructor
  · have e₁ : Vec.norm2 (getMedianPoint c₁) =
        ((sortVectors c₁).map Vec.norm2).getD ((c₁.length - 1) / 2) 0 := by
      rw [hg₁, List.getD_eq_getElem _ _ hmlt₁]
      exact (List.getElem_map _).symm
    have e₂ : Vec.norm2 (getMedianPoint c₂) =
        ((sortVectors c₂).map Vec.norm2).getD ((c₁.length - 1) / 2) 0 := by
      rw [hg₂, List.getD_eq_getElem _ _ hmlt₂]
      exact (List.getElem_map _).symm
    rw [e₁, e₂, hmapeq]
  · intro hnd
    have hnds : ((sortVectors c₁).map Vec.norm2).Nodup :=
      ((hperm₁.map Vec.norm2).symm).nodup hnd
    have hseq : sortVectors c₁ = sortVectors c₂ :=
      eq_of_perm_map_nodup Vec.norm2 hss hmapeq hnds
    unfold getMedianPoint
    rw [hseq, hclen]

/-- C3 (amended): `medianFromPointClouds` is invariant to the
contiguous worker grouping; permuting the cloud list preserves the squared
distance from origin of the selected point, and preserves the selected
point itself whenever no two per-cloud closest points are tied in squared
distance. -/
theorem medianFromPointClouds_perm_invariant (clouds₁ clouds₂ : List PointCloud)
    (hne : clouds₁ ≠ []) (hp : clouds₁.Perm clouds₂) :
    (∀ sizes : List ℕ, clouds₁.length ≤ sizes.sum →
        groupedCandidates sizes clouds₁ = clouds₁.map getClosestPoint) ∧
    ∃ v₁ v₂ : Vec,
      medianFromPointClouds clouds₁ = .ok v₁ ∧
      medianFromPointClouds clouds₂ = .ok v₂ ∧
      v₁.norm2 = v₂.norm2 ∧
      (((clouds₁.map getClosestPoint).map Vec.norm2).Nodup → v₁ = v₂) := by
  refine ⟨fun sizes hs => groupedCandidates_eq_map sizes clouds₁ hs, ?_⟩
  have hpc : (clouds₁.map getClosestPoint).Perm (clouds₂.map getClosestPoint) :=
    hp.map getClosestPoint
  have hne₁ : clouds₁.map getClosestPoint ≠ [] := by
    intro h0
    exact hne (List.map_eq_nil_iff.mp h0)
  have hlen₁ : ¬((clouds₁.map getClosestPoint).length = 0) := by
    simpa [List.length_eq_zero] using hne₁
  have hlen₂ : ¬((clouds₂.map getClosestPoint).length = 0) := by
    rw [← hpc.length_eq]
    exact hlen₁
  obtain ⟨hn2, hnd⟩ :=
    getMedianPoint_perm (clouds₁.map getClosestPoint)
      (clouds₂.map getClosestPoint) hpc hne₁
  refine ⟨getMedianPoint (clouds₁.map getClosestPoint),
    getMedianPoint (clouds₂.map getClosestPoint), ?_, ?_, hn2, hnd⟩
  · unfold medianFromPointClouds
    rw [if_neg hlen₁]
  · unfold medianFromPointClouds
    rw [if_neg hlen₂]

/-- Counterexample to C3 as stated: two singleton clouds whose closest
points are tied in squared distance; permuting the cloud list changes the
selected point. -/
theorem medianFromPointClouds_perm_counterexample :
    ([[⟨1,0,0⟩], [⟨0,1,0⟩]] : List PointCloud).Perm [[⟨0,1,0⟩], [⟨1,0,0⟩]] ∧
    (∀ c ∈ ([[⟨1,0,0⟩], [⟨0,1,0⟩]] : List PointCloud), c ≠ []) ∧
    medianFromPointClouds [[⟨1,0,0⟩], [⟨0,1,0⟩]] = .ok ⟨1,0,0⟩ ∧
    medianFromPointClouds [[⟨0,1,0⟩], [⟨1,0,0⟩]] = .ok ⟨0,1,0⟩ ∧
    (⟨1,0,0⟩ : Vec) ≠ ⟨0,1,0⟩ := by
  refine ⟨by decide, by decide, ?_, ?_, by decide⟩
  · norm_num [medianFromPointClouds, getMedianPoint, sortVectors,
      List.insertionSort, List.orderedInsert, vecLe, Vec.norm2,
      getClosestPoint, closestStep, Vec.origin, List.foldl]
  · norm_num [medianFromPointClouds, getMedianPoint, sortVectors,
      List.insertionSort, List.orderedInsert, vecLe, Vec.norm2,
      getClosestPoint, closestStep, Vec.origin, List.foldl]

/-- Witness for the amended C3 on two singleton clouds with distinct
closest-point distances. -/
theorem medianFromPointClouds_perm_invariant_witness :
    ([[⟨1,0,0⟩], [⟨2,0,0⟩]] : List PointCloud) ≠ [] ∧
    ([[⟨1,0,0⟩], [⟨2,0,0⟩]] : List PointCloud).Perm [[⟨2,0,0⟩], [⟨1,0,0⟩]] ∧
    ((∀ sizes : List ℕ,
        ([[⟨1,0,0⟩], [⟨2,0,0⟩]] : List PointCloud).length ≤ sizes.sum →
        groupedCandidates sizes [[⟨1,0,0⟩], [⟨2,0,0⟩]] =
          ([[⟨1,0,0⟩], [⟨2,0,0⟩]] : List PointCloud).map getClosestPoint) ∧
      ∃ v₁ v₂ : Vec,
        medianFromPointClouds [[⟨1,0,0⟩], [⟨2,0,0⟩]] = .ok v₁ ∧
        medianFromPointClouds [[⟨2,0,0⟩], [⟨1,0,0⟩]] = .ok v₂ ∧
        v₁.norm2 = v₂.norm2 ∧
        (((([[⟨1,0,0⟩], [⟨2,0,0⟩]] : List PointCloud).map
            getClosestPoint).map Vec.norm2).Nodup → v₁ = v₂)) :=
  ⟨by decide, by decide,
    medianFromPointClouds_perm_invariant _ _ (by decide) (by decide)⟩

/-- If the first `d` acquisitions starting at `s` succeed and the next one
fails with `e`, the run stops with `e` after exactly `d + 1` calls. -/
theorem acquireRun_fail {E : Type} (acquire : ℕ → Except E PointCloud) (e : E) :
    ∀ (d n s : ℕ), d < n →
      (∀ j, j < d → ∃ pc, acquire (s + j) = .ok pc) →
      acquire (s + d) = .error e →
      acquireRun acquire s n = (.error e, d + 1) := by
  intro d
  induction d with
  | zero =>
    intro n s hdn hok hfail
    match n, hdn with
    | n + 1, _ =>
      have hfail' : acquire s = .error e := hfail
      show acquireRun acquire s (n + 1) = _
      unfold acquireRun
      rw [hfail']
  | succ d ih =>
    intro n s hdn hok hfail
    match n, hdn with
    | n + 1, hdn' =>
      obtain ⟨pc, hpc⟩ := hok 0 (Nat.succ_pos d)
      have hpc' : acquire s = .ok pc := hpc
      have hr : acquireRun acquire (s + 1) n = (.error e, d + 1) := by
        apply ih n (s + 1) (Nat.lt_of_succ_lt_succ hdn')
        · intro j hj
          obtain ⟨pc', hpc₂⟩ := hok (j + 1) (Nat.succ_lt_succ hj)
          exact ⟨pc', by rw [show s + 1 + j = s + (j + 1) by omega]; exact hpc₂⟩
        · rw [show s + 1 + d = s + (d + 1) by omega]
          exact hfail
      show acquireRun acquire s (n + 1) = _
      unfold acquireRun
      rw [hpc', hr]

/-- If all `n` acquisitions starting at `s` succeed, the run makes exactly
`n` calls and returns some collected cloud list. -/
theorem acquireRun_all_ok {E : Type} (acquire : ℕ → Except E PointCloud) :
    ∀ (n s : ℕ), (∀ j, j < n → ∃ pc, acquire (s + j) = .ok pc) →
      ∃ clouds, acquireRun acquire s n = (.ok clouds, n) := by
  intro n
  induction n with
  | zero =>
    intro s _
    exact ⟨[], rfl⟩
  | succ n ih =>
    intro s hok
    obtain ⟨pc, hpc⟩ := hok 0 (Nat.succ_pos n)
    have hpc' : acquire s = .ok pc := hpc
    obtain ⟨clouds, hr⟩ := ih (s + 1) fun j hj => by
      obtain ⟨pc', hpc₂⟩ := hok (j + 1) (Nat.succ_lt_succ hj)
      exact ⟨pc', by rw [show s + 1 + j = s + (j + 1) by omega]; exact hpc₂⟩
    refine ⟨if pc.length = 0 then clouds else pc :: clouds, ?_⟩
    show acquireRun acquire s (n + 1) = _
    unfold acquireRun
    rw [hpc', hr]

/-- If all `n` acquisitions starting at `s` succeed with empty clouds, the
run makes exactly `n` calls and collects nothing. -/
theorem acquireRun_all_empty {E : Type} (acquire : ℕ → Except E PointCloud) :
    ∀ (n s : ℕ),
      (∀ j, j < n → ∃ pc, acquire (s + j) = .ok pc ∧ pc.length = 0) →
      acquireRun acquire s n = (.ok [], n) := by
  intro n
  induction n with
  | zero =>
    intro s _
    rfl
  | succ n ih =>
    intro s hok
    obtain ⟨pc, hpc, hplen⟩ := hok 0 (Nat.succ_pos n)
    have hpc' : acquire s = .ok pc := hpc
    have hr : acquireRun acquire (s + 1) n = (.ok [], n) := by
      apply ih (s + 1)
      intro j hj
      obtain ⟨pc', hpc₂, hplen'⟩ := hok (j + 1) (Nat.succ_lt_succ hj)
      exact ⟨pc', by rw [show s + 1 + j = s + (j + 1) by omega]; exact hpc₂,
        hplen'⟩
    show acquireRun acquire s (n + 1) = _
    unfold acquireRun
    rw [hpc', hr]
    simp [hplen]

/-- C4: If the first failing acquisition is the call at 0-based index
`i` (so attempt `i + 1` of `n`), the segmenter returns that error verbatim
after exactly `i + 1` calls to the cloud source, performing none of the
remaining `n - (i + 1)` calls and producing no partial result; and when no
acquisition fails, exactly `n` calls are performed. -/
theorem segmenter_fail_fast {E : Type} (acquire : ℕ → Except E PointCloud)
    (n : ℕ) :
    (∀ (i : ℕ) (e : E), i < n →
        (∀ j, j < i → ∃ pc, acquire j = .ok pc) →
        acquire i = .error e →
        acquireRun acquire 0 n = (.error e, i + 1) ∧
        segmenter acquire n = .error (.acquisition e)) ∧
    ((∀ j, j < n → ∃ pc, acquire j = .ok pc) →
        (acquireRun acquire 0 n).2 = n) := by
  constructor
  · intro i e hin hok hfail
    have hrun : acquireRun acquire 0 n = (.error e, i + 1) := by
      apply acquireRun_fail acquire e i n 0 hin
      · intro j hj
        simpa using hok j hj
      · simpa using hfail
    refine ⟨hrun, ?_⟩
    unfold segmenter
    rw [hrun]
  · intro hok
    obtain ⟨clouds, hr⟩ :=
      acquireRun_all_ok acquire n 0 fun j hj => by simpa using hok j hj
    rw [hr]

/-- Witness for C4: with a source that succeeds on the first two queries
and fails on the third (`"boom"`), a 5-query segmenter stops after 3 calls
with the verbatim error; a never-failing source is called exactly 5
times. -/
theorem segmenter_fail_fast_witness :
    (2 < 5 ∧
      (∀ j, j < 2 → ∃ pc,
        (if j < 2 then Except.ok [(⟨1,0,0⟩ : Vec)]
         else Except.error "boom" : Except String PointCloud) = .ok pc) ∧
      (if 2 < 2 then Except.ok [(⟨1,0,0⟩ : Vec)]
       else Except.error "boom" : Except String PointCloud) =
        .error "boom") ∧
    (acquireRun (fun j => if j < 2 then Except.ok [(⟨1,0,0⟩ : Vec)]
        else Except.error "boom") 0 5 = (.error "boom", 3) ∧
      segmenter (fun j => if j < 2 then Except.ok [(⟨1,0,0⟩ : Vec)]
        else Except.error "boom") 5 = .error (.acquisition "boom")) ∧
    (acquireRun (fun _ =>
        (Except.ok [⟨1,0,0⟩] : Except String PointCloud)) 0 5).2 = 5 := by
  have hok : ∀ j, j < 2 → ∃ pc,
      (if j < 2 then Except.ok [(⟨1,0,0⟩ : Vec)]
       else Except.error "boom" : Except String PointCloud) = .ok pc := by
    intro j hj
    exact ⟨[⟨1,0,0⟩], by rw [if_pos hj]⟩
  refine ⟨⟨by decide, hok, by rfl⟩, ?_, ?_⟩
  · exact (segmenter_fail_fast
      (fun j => if j < 2 then Except.ok [(⟨1,0,0⟩ : Vec)]
        else Except.error "boom") 5).1 2 "boom" (by decide) hok (by rfl)
  · exact (segmenter_fail_fast
      (fun _ => (Except.ok [⟨1,0,0⟩] : Except String PointCloud)) 5).2
      fun j hj => ⟨[⟨1,0,0⟩], rfl⟩

/-- C5: If every one of the `n` acquisitions succeeds but returns an
empty cloud, the segmenter fails with the distinct no-usable-samples error
(`"none of the input point clouds contained any points"`), which is never
an acquisition error: empty clouds are skipped silently, not treated as
errors. -/
theorem segmenter_all_empty {E : Type} (acquire : ℕ → Except E PointCloud)
    (n : ℕ)
    (hempty : ∀ j, j < n → ∃ pc, acquire j = .ok pc ∧ pc.length = 0) :
    segmenter acquire n = .error .noPoints ∧
    ∀ e : E, (SegError.noPoints : SegError E) ≠ .acquisition e := by
  have hrun : acquireRun acquire 0 n = (.ok [], n) :=
    acquireRun_all_empty acquire n 0 fun j hj => by simpa using hempty j hj
  constructor
  · unfold segmenter
    rw [hrun]
    rfl
  · intro e h
    exact SegError.noConfusion h

/-- Witness for C5: five acquisitions, each returning an empty cloud. -/
theorem segmenter_all_empty_witness :
    (∀ j, j < 5 → ∃ pc,
      (fun _ : ℕ => (Except.ok [] : Except String PointCloud)) j = .ok pc ∧
        pc.length = 0) ∧
    (segmenter (fun _ : ℕ => (Except.ok [] : Except String PointCloud)) 5 =
        .error .noPoints ∧
      ∀ e : String,
        (SegError.noPoints : SegError String) ≠ .acquisition e) :=
  ⟨fun j hj => ⟨[], rfl, rfl⟩,
    segmenter_all_empty _ 5 fun j hj => ⟨[], rfl, rfl⟩⟩

/-- C8: the function `Validate` accepts a configuration exactly when, after
substituting the default `DefaultNumQueries = 10` for an unset (zero)
`num_queries`, the value lies in the inclusive range `[1, 20]`; any other
value yields the configuration error.  Validation is a pure function of the
configuration alone, decided before any acquisition: the segmenter's error
type has no configuration-error case. -/
theorem Validate_characterisation (config : DistanceDetectorConfig) :
    Validate config =
      if 1 ≤ (if config.numQueries = 0 then DefaultNumQueries
              else config.numQueries) ∧
         (if config.numQueries = 0 then DefaultNumQueries
          else config.numQueries) ≤ 20 then
        .ok (if config.defaultCamera ≠ "" then [config.defaultCamera] else [],
          [])
      else .error "invalid number of queries, pick a number between 1 and 20"
      := by
  simp only [Validate, DefaultNumQueries]
  split_ifs <;> first | rfl | omega

/-- C9: With an empty camera name and no default camera, both
`GetObjectPointClouds` and `CaptureAllFromCamera` return the
`"no camera specified"` error, for every dependency set, every acquisition
function (hence without performing any acquisition call), and every capture
option. -/
theorem noCameraSpecified_error {E Img : Type} (deps : Deps)
    (acq : String → ℕ → Except E PointCloud) (nq : ℕ)
    (decodeImage : String → Except String Img) (opts : CaptureOptions) :
    GetObjectPointClouds ⟨deps, none, acq, nq⟩ "" =
      .error .noCameraSpecified ∧
    CaptureAllFromCamera ⟨deps, none, acq, nq⟩ decodeImage "" opts =
      .error .noCameraSpecified :=
  ⟨rfl, rfl⟩

/-- C10: the methods `NewClientFromConn`, `Detections`, `DetectionsFromCamera`,
`Classifications`, `ClassificationsFromCamera` and `DoCommand` return the
unimplemented-method sentinel on every input and never a result, while
`GetProperties` reports classification and detection unsupported and
object point clouds supported. -/
theorem unimplemented_and_properties {Conn Svc Img Det Cls Cmd Res : Type}
    (conn : Conn) (remoteName : String) (img : Img) (cameraName : String)
    (count : ℕ) (cmd : Cmd) :
    @NewClientFromConn Conn Svc conn remoteName = .error .unimplemented ∧
    @Detections Img Det img = .error .unimplemented ∧
    @DetectionsFromCamera Det cameraName = .error .unimplemented ∧
    @Classifications Img Cls img count = .error .unimplemented ∧
    @ClassificationsFromCamera Cls cameraName count = .error .unimplemented ∧
    @DoCommand Cmd Res cmd = .error .unimplemented ∧
    GetProperties = .ok ⟨false, false, true⟩ :=
  ⟨rfl, rfl, rfl, rfl, rfl, rfl, rfl⟩

end ObstaclesDistance
